import Mathlib

/-!
Shallow embedding of the MAG invoice processor core (`parser.py`, `config.py`).

Modelling conventions:
* Python regular expressions are embedded by a small backtracking engine
  (`Regex`, `matchList`, `searchList`) whose result list is ordered by the
  backtracking preference of the CPython `re` module (alternatives left to
  right, greedy repetition longest first, lazy repetition shortest first);
  `re.search` is the head of the result list at the leftmost position that
  has any match, exactly as `searchList` scans positions left to right.
* Python floats are modelled as exact decimal values held in integer cents
  (the code always rounds to two fractional digits before a float is
  stored or compared); binary floating-point rounding error is outside the
  model.  `str(float)` for such values is `reprCents`.
* Python dicts are association lists with insertion order and
  first-occurrence update (`dictSet`, `dictGet?`); object identity for the
  mutable invoice dicts of `compare_with_gold` is modelled by a heap
  mapping addresses to dicts.
* `\d`, `\s` and `\w` are modelled on their ASCII cores (plus the Polish
  letters that appear in the configuration); the documents the patterns
  are written for use only those characters.
-/

/-- Python `\d` character class (ASCII core). -/
def isDigitA (c : Char) : Bool := c.isDigit

/-- Python `\s` character class (ASCII core). -/
def isPySpace (c : Char) : Bool :=
  c = ' ' || c = '\t' || c = '\n' || c = '\r' || c = '\x0b' || c = '\x0c'

/-- Polish letters appearing in the configuration patterns. -/
def isPolishLetter (c : Char) : Bool :=
  c = 'ą' || c = 'ć' || c = 'ę' || c = 'ł' || c = 'ń' || c = 'ó' || c = 'ś' ||
  c = 'ź' || c = 'ż' || c = 'Ą' || c = 'Ć' || c = 'Ę' || c = 'Ł' || c = 'Ń' ||
  c = 'Ó' || c = 'Ś' || c = 'Ź' || c = 'Ż'

/-- Lower-casing used for `re.IGNORECASE` literals (ASCII plus `Ó`, the one
non-ASCII letter under an `IGNORECASE` pattern in the configuration). -/
def lowerPy (c : Char) : Char := if c = 'Ó' then 'ó' else c.toLower

/-- Python `\w` character class (ASCII core plus the Polish letters used in
the configuration). -/
def isWordPy (c : Char) : Bool := c.isAlphanum || c = '_' || isPolishLetter c

/-- Abstract syntax of the regular-expression fragment used by
`config.py` and `clean_number`: character classes, concatenation,
alternation, greedy star, lazy star and capturing groups. -/
inductive Regex : Type where
  | eps : Regex
  | cls (p : Char → Bool) : Regex
  | cat (r1 r2 : Regex) : Regex
  | alt (r1 r2 : Regex) : Regex
  | star (r : Regex) : Regex
  | starL (r : Regex) : Regex
  | group (r : Regex) : Regex

/-- One match alternative: `(consumed, remainder, captured groups)`. -/
abbrev MRes : Type := List Char × List Char × List (List Char)

/-- Greedy star iteration: given the matcher `m` of the starred expression,
all ways to iterate it on `l`, longest-first (as the greedy `*` of CPython
backtracks), skipping non-consuming iterations.  `fuel` bounds the number
of iterations; since every iteration consumes at least one character,
`l.length + 1` is always enough. -/
def starMatches (m : List Char → List MRes) : Nat → List Char → List MRes
  | 0, l => [([], l, [])]
  | fuel + 1, l =>
      ((m l).flatMap fun m1 =>
        if m1.1 = [] then []
        else (starMatches m fuel m1.2.1).map fun m2 =>
          (m1.1 ++ m2.1, m2.2.1, m1.2.2 ++ m2.2.2)) ++ [([], l, [])]

/-- Lazy star iteration (`*?`): shortest-first. -/
def starLMatches (m : List Char → List MRes) : Nat → List Char → List MRes
  | 0, l => [([], l, [])]
  | fuel + 1, l =>
      ([], l, []) :: ((m l).flatMap fun m1 =>
        if m1.1 = [] then []
        else (starLMatches m fuel m1.2.1).map fun m2 =>
          (m1.1 ++ m2.1, m2.2.1, m1.2.2 ++ m2.2.2))

/-- All matches of a regex against a prefix of `l`, as
`(consumed, remainder, captured groups)` triples, in CPython backtracking
preference order: the head of the list is the match `re` would produce at
this position.  `fuel` bounds star iteration; `l.length + 1` is always
enough. -/
def matchList : Regex → List Char → Nat → List MRes
  | .eps, l, _ => [([], l, [])]
  | .cls _, [], _ => []
  | .cls p, c :: t, _ => if p c then [([c], t, [])] else []
  | .cat r1 r2, l, fuel =>
      (matchList r1 l fuel).flatMap fun m1 =>
        (matchList r2 m1.2.1 fuel).map fun m2 => (m1.1 ++ m2.1, m2.2.1, m1.2.2 ++ m2.2.2)
  | .alt r1 r2, l, fuel => matchList r1 l fuel ++ matchList r2 l fuel
  | .group r, l, fuel => (matchList r l fuel).map fun m => (m.1, m.2.1, m.1 :: m.2.2)
  | .star r, l, fuel => starMatches (fun l' => matchList r l' fuel) fuel l
  | .starL r, l, fuel => starLMatches (fun l' => matchList r l' fuel) fuel l

/-- The preferred match of `r` anchored at the start of `l`
(`(consumed, groups)`), if any. -/
def headMatch (r : Regex) (l : List Char) : Option (List Char × List (List Char)) :=
  (matchList r l (l.length + 1)).head?.map fun m => (m.1, m.2.2)

/-- Python `re.search` on a character list: scan start positions left to right and
return the preferred match at the first position that has one. -/
def searchList (r : Regex) : List Char → Option (List Char × List (List Char))
  | [] => headMatch r []
  | c :: t =>
    match headMatch r (c :: t) with
    | some m => some m
    | none => searchList r t

/-- Python `pattern.search(text)` from `parser.py`. -/
def reSearch (r : Regex) (s : String) : Option (List Char × List (List Char)) :=
  searchList r s.data

/-- Specification-side "first match in document order": scan all start
positions `0, 1, …` from the left and take the backtracking-preferred
match at the first position that has one — not the longest and not the
last. -/
def docFirstMatch (r : Regex) (l : List Char) : Option MRes :=
  ((List.range (l.length + 1)).filterMap fun i =>
    (matchList r (l.drop i) ((l.drop i).length + 1)).head?).head?

/-- Python `str.strip()` (whitespace from both ends). -/
def pyStrip (l : List Char) : List Char :=
  ((l.dropWhile isPySpace).reverse.dropWhile isPySpace).reverse

/-- Single-character literal. -/
def rlit1 (c : Char) : Regex := .cls (fun x => x = c)

/-- String literal. -/
def rlit (s : String) : Regex := s.data.foldr (fun c acc => .cat (rlit1 c) acc) .eps

/-- String literal under `re.IGNORECASE`. -/
def rlitI (s : String) : Regex :=
  s.data.foldr (fun c acc => .cat (.cls (fun x => lowerPy x = lowerPy c)) acc) .eps

/-- Python `r?` (greedy option). -/
def ropt (r : Regex) : Regex := .alt r .eps

/-- Python `r+` (greedy). -/
def rplus (r : Regex) : Regex := .cat r (.star r)

/-- Python `r{n}`. -/
def rrep (r : Regex) : Nat → Regex
  | 0 => .eps
  | n + 1 => .cat r (rrep r n)

/-- Python `\d`. -/
def rdig : Regex := .cls isDigitA

/-- Python `\s`. -/
def rsp : Regex := .cls isPySpace

/-- Concatenation of a list of regexes. -/
def rcats (l : List Regex) : Regex := l.foldr .cat .eps

/-- Python `.` without `re.DOTALL`: any character except a newline. -/
def rdotNoNL : Regex := .cls (fun c => !(c == '\n'))

/-- Python `.` under `re.DOTALL`: any character. -/
def rdotAll : Regex := .cls (fun _ => true)

/-- Python `[\d\s,]`. -/
def numCls : Regex := .cls (fun c => isDigitA c || isPySpace c || c = ',')

/-- Python `\d{4}-\d{2}-\d{2}`. -/
def rdate : Regex := rcats [rrep rdig 4, rlit1 '-', rrep rdig 2, rlit1 '-', rrep rdig 2]

/-- Python `\d{3,4}` (greedy: four digits preferred). -/
def rdig34 : Regex := rcats [rrep rdig 3, ropt rdig]

/-- Python `nr\s*\(S\)FS-([A-Z0-9/_]+)`. -/
def magNumerFaktoryRe : Regex :=
  rcats [rlit "nr", .star rsp, rlit "(S)FS-",
    .group (rplus (.cls (fun c => ('A' ≤ c && c ≤ 'Z') || isDigitA c || c = '/' || c = '_')))]

/-- Python `Data wystawienia:\s*(\d{4}-\d{2}-\d{2})`. -/
def magDataWystawieniaRe : Regex := rcats [rlit "Data wystawienia:", .star rsp, .group rdate]

/-- Python `Data sprzedaży:\s*(\d{4}-\d{2}-\d{2})`. -/
def magDataSprzedazyRe : Regex := rcats [rlit "Data sprzedaży:", .star rsp, .group rdate]

/-- Python `SKL(?:EP)?[.\s]+(\d{3,4})`. -/
def magSklepRe : Regex :=
  rcats [rlit "SKL", ropt (rlit "EP"),
    rplus (.cls (fun c => c = '.' || isPySpace c)), .group rdig34]

/-- Python `(?:Zamówienia:.*?|zam\s*)(\d{8})` with `re.IGNORECASE`. -/
def magNumerZamowieniaRe : Regex :=
  rcats [.alt (rcats [rlitI "Zamówienia:", .starL rdotNoNL]) (rcats [rlitI "zam", .star rsp]),
    .group (rrep rdig 8)]

/-- Python `Forma płatności.*?\s+(\d{4}-\d{2}-\d{2})` with `re.DOTALL`. -/
def magTerminPlatnosciRe : Regex :=
  rcats [rlit "Forma płatności", .starL rdotAll, rplus rsp, .group rdate]

/-- Python `W tym:\s*5%\s*([\d\s,]+)`. -/
def magVat5Re : Regex :=
  rcats [rlit "W tym:", .star rsp, rlit "5%", .star rsp, .group (rplus numCls)]

/-- Python `23% \s*([\d\s,]+)`. -/
def magVat23Re : Regex := rcats [rlit "23% ", .star rsp, .group (rplus numCls)]

/-- Python `Razem do zapłaty:\s*([\d\s,]+)` (used by both suppliers). -/
def bruttoRe : Regex := rcats [rlit "Razem do zapłaty:", .star rsp, .group (rplus numCls)]

/-- Python `Faktura VAT\s+([\w` slash hyphen `]+)` (the class is word characters,
slash and hyphen). -/
def anbaNumerFaktoryRe : Regex :=
  rcats [rlit "Faktura VAT", rplus rsp,
    .group (rplus (.cls (fun c => isWordPy c || c = '/' || c = '-')))]

/-- Python `www\.facebook\.com/people/AN-BA\s*\n?(\d{4}-\d{2}-\d{2})`. -/
def anbaDataWystawieniaRe : Regex :=
  rcats [rlit "www.facebook.com/people/AN-BA", .star rsp, ropt (rlit1 '\n'), .group rdate]

/-- Python `NIP:\s*957-095-88-16,\s*biuro@an-ba\.pl\s*\n?(\d{4}-\d{2}-\d{2})`. -/
def anbaDataSprzedazyRe : Regex :=
  rcats [rlit "NIP:", .star rsp, rlit "957-095-88-16,", .star rsp, rlit "biuro@an-ba.pl",
    .star rsp, ropt (rlit1 '\n'), .group rdate]

/-- Python `Uwagi\s*do\s*dokumentu:\s*(?:zam\.?\s*)?(\d+)`. -/
def anbaNumerZamowieniaRe : Regex :=
  rcats [rlit "Uwagi", .star rsp, rlit "do", .star rsp, rlit "dokumentu:", .star rsp,
    ropt (rcats [rlit "zam", ropt (rlit1 '.'), .star rsp]), .group (rplus rdig)]

/-- Python `W\s*terminie:\s*\d+\s*dni\s*=\s*(\d{4}-\d{2}-\d{2})`. -/
def anbaTerminPlatnosciRe : Regex :=
  rcats [rlit "W", .star rsp, rlit "terminie:", .star rsp, rplus rdig, .star rsp,
    rlit "dni", .star rsp, rlit1 '=', .star rsp, .group rdate]

/-- Python `Podstawowy\s*podatek\s*VAT\s*23%\s*([\d\s,]+)\s*([\d\s,]+)\s*([\d\s,]+)`. -/
def anbaVat23Re : Regex :=
  rcats [rlit "Podstawowy", .star rsp, rlit "podatek", .star rsp, rlit "VAT", .star rsp,
    rlit "23%", .star rsp, .group (rplus numCls), .star rsp, .group (rplus numCls),
    .star rsp, .group (rplus numCls)]

/-- Python `ID[:\s]+(\d{3,4})`. -/
def anbaSklepRe : Regex :=
  rcats [rlit "ID", rplus (.cls (fun c => c = ':' || isPySpace c)), .group rdig34]

/-- Python `zam\s*(\d{8})` with `re.IGNORECASE`. -/
def magOrderAltRe : Regex := rcats [rlitI "zam", .star rsp, .group (rrep rdig 8)]

/-- Python `Numer\s*zamówienia\s*:\s*(\d+)` with `re.IGNORECASE`. -/
def anbaOrderAltRe : Regex :=
  rcats [rlitI "Numer", .star rsp, rlitI "zamówienia", .star rsp, rlit1 ':', .star rsp,
    .group (rplus rdig)]

/-- Python `SUPPLIER_PATTERNS` from `config.py`, in source order. -/
def SUPPLIER_PATTERNS : List (String × List (String × Regex)) :=
  [("MAG Dystrybucja",
    [("Numer faktóry", magNumerFaktoryRe),
     ("Data wystawienia", magDataWystawieniaRe),
     ("Data sprzedaży", magDataSprzedazyRe),
     ("Sklep", magSklepRe),
     ("Numer zamówienia", magNumerZamowieniaRe),
     ("Termin płatności", magTerminPlatnosciRe),
     ("VAT 5%", magVat5Re),
     ("VAT 23%", magVat23Re),
     ("Brutto", bruttoRe)]),
   ("AN-BA",
    [("Numer faktóry", anbaNumerFaktoryRe),
     ("Data wystawienia", anbaDataWystawieniaRe),
     ("Data sprzedaży", anbaDataSprzedazyRe),
     ("Numer zamówienia", anbaNumerZamowieniaRe),
     ("Termin płatności", anbaTerminPlatnosciRe),
     ("VAT 23%", anbaVat23Re),
     ("Brutto", bruttoRe),
     ("Sklep", anbaSklepRe)])]

/-- Python `ALTERNATIVE_PATTERNS` from `config.py`. -/
def ALTERNATIVE_PATTERNS : List (String × List (String × Regex)) :=
  [("MAG Dystrybucja", [("order_number", magOrderAltRe)]),
   ("AN-BA", [("order_number", anbaOrderAltRe)])]

/-- Keyed lookup in an association list (Python `dict[...]` access via `get`). -/
def dictFind {α : Type} (d : List (String × α)) (k : String) : Option α :=
  (d.find? fun kv => kv.1 == k).map (·.2)

/-- Python `match.group(1)` of an engine result (every configured pattern has at
least one capturing group, so the default is never exercised). -/
def group1 (m : List Char × List (List Char)) : List Char := m.2.head?.getD []

/-- One iteration of the loop body of `InvoiceParser._search_patterns`:
a falsy (absent) pattern is skipped; a present pattern that fails to match
falls through to the next one; on a match, `match.group(1).strip()` is
returned. -/
def tryPattern (text : String) : Option Regex → Option String
  | none => none
  | some r => (reSearch r text).map fun m => String.mk (pyStrip (group1 m))

/-- Python `InvoiceParser._search_patterns` (`parser.py` lines 42-53). -/
def _search_patterns (text : String) (primary_pattern alternative_pattern : Option Regex) :
    Option String :=
  match tryPattern text primary_pattern with
  | some v => some v
  | none => tryPattern text alternative_pattern

/-- Python `\d{1,3}(?:[ \.]\d{3})*,\d+` — the first alternative of the number
matcher of `InvoiceParser.clean_number` (grouped digits with a decimal
comma). -/
def numAlt1 : Regex :=
  rcats [rdig, ropt (rcats [rdig, ropt rdig]),
    .star (rcats [.cls (fun c => c = ' ' || c = '.'), rrep rdig 3]),
    rlit1 ',', rplus rdig]

/-- Python `\d{1,3}(?:[ \.]\d{3})*,\d+|\d+` — the number matcher of
`InvoiceParser.clean_number`. -/
def numberRegex : Regex := .alt numAlt1 (rplus rdig)

/-- Numeric value of a digit string. -/
def natOfDigits (l : List Char) : Nat := l.foldl (fun a c => 10 * a + (c.toNat - 48)) 0

/-- Python `float(s)` for the strings `clean_number` builds (digits with at most
one decimal point), as an exact decimal `(mantissa, exponent)` with value
`mantissa / 10 ^ exponent`.  Other shapes cannot reach `float` there. -/
def parseDec (l : List Char) : Nat × Nat :=
  match l.dropWhile isDigitA with
  | '.' :: fr => (natOfDigits (l.takeWhile isDigitA ++ fr), fr.length)
  | _ => (natOfDigits (l.takeWhile isDigitA), 0)

/-- Round `m / d` to the nearest integer, ties to even (Python `round`). -/
def roundHalfEven (m d : Nat) : Nat :=
  let q := m / d
  let r := m % d
  if 2 * r < d then q else if d < 2 * r then q + 1 else if q % 2 = 0 then q else q + 1

/-- Python `round(x, 2)` on an exact decimal, returned in cents. -/
def round2cents (md : Nat × Nat) : Nat :=
  if md.2 ≤ 2 then md.1 * 10 ^ (2 - md.2)
  else roundHalfEven md.1 (10 ^ (md.2 - 2))

/-- Python `InvoiceParser.clean_number` (`parser.py` lines 55-70): search for the
number pattern, drop spaces and periods, turn the decimal comma into a
point, parse and round to two fractional digits.  The returned float is
modelled in exact cents; `None` is `none`. -/
def clean_number (value : String) : Option Nat :=
  if value = "" then none
  else
    match reSearch numberRegex value with
    | some m =>
        let cleaned := (m.1.filter fun c => !(c = ' ' || c = '.')).map
          fun c => if c = ',' then '.' else c
        some (round2cents (parseDec cleaned))
    | none => none

/-- Interpretation of a cents value as the decimal it models. -/
def centsQ (n : Int) : ℚ := (n : ℚ) / 100

/-- A value stored in an extraction-result dict: Python `None`, a string, a
float (in exact cents) or the float `nan`. -/
inductive EVal : Type where
  | none : EVal
  | str (s : String) : EVal
  | num (cents : Int) : EVal
  | nan : EVal
deriving DecidableEq

/-- A Python dict with string keys, as an insertion-ordered association
list: updating an existing key keeps its position, a new key is appended. -/
abbrev Dict := List (String × EVal)

/-- Python `d[k] = v` on a Python dict. -/
def dictSet : Dict → String → EVal → Dict
  | [], k, v => [(k, v)]
  | (k', v') :: t, k, v => if k' = k then (k, v) :: t else (k', v') :: dictSet t k v

/-- Python `d.get(k)` on a Python dict. -/
def dictGet? : Dict → String → Option EVal
  | [], _ => none
  | (k', v') :: t, k => if k' = k then some v' else dictGet? t k

/-- Python `any(sub in key.lower() for sub in ["net", "vat", "total"])`. -/
def isSubstr (pat : List Char) : List Char → Bool
  | [] => pat.isEmpty
  | c :: t => pat.isPrefixOf (c :: t) || isSubstr pat t

/-- The numeric-field test of `extract_data`: the lower-cased field name
contains `net`, `vat` or `total`. -/
def isNumericKey (k : String) : Bool :=
  let lk := k.data.map lowerPy
  isSubstr "net".data lk || isSubstr "vat".data lk || isSubstr "total".data lk

/-- The value `extract_data` stores for one requested field: the pattern
search result, passed through `clean_number` when it is truthy (non-`None`
and non-empty) and the field name is numeric. -/
def extractField (text supplier key : String) : EVal :=
  match _search_patterns text
      (dictFind ((dictFind SUPPLIER_PATTERNS supplier).getD []) key)
      (dictFind ((dictFind ALTERNATIVE_PATTERNS supplier).getD []) key) with
  | none => EVal.none
  | some s =>
    if s = "" then EVal.str s
    else if isNumericKey key then
      match clean_number s with
      | some c => EVal.num (c : Int)
      | none => EVal.none
    else EVal.str s

/-- Python `InvoiceParser.extract_data` (`parser.py` lines 19-40): initialise every
requested field to `None`, fill each from the patterns (normalizing
numeric fields), then record the supplier tag.  Total: extraction never
raises. -/
def extract_data (text supplier : String) (selected_fields : List String) : Dict :=
  let init := selected_fields.foldl (fun d k => dictSet d k EVal.none) []
  let d := selected_fields.foldl (fun d k => dictSet d k (extractField text supplier k)) init
  dictSet d "supplier" (EVal.str supplier)

/-- Digits of a natural number (structural fuel recursion, so that the
kernel can evaluate it). -/
def natDigitsAux : Nat → Nat → List Char
  | 0, _ => []
  | fuel + 1, n => if n = 0 then [] else natDigitsAux fuel (n / 10) ++ [Char.ofNat (48 + n % 10)]

/-- Decimal string of a natural number. -/
def natStr (n : Nat) : String := if n = 0 then "0" else String.mk (natDigitsAux (n + 1) n)

/-- Python `str(x)` for a Python float holding an exact cents value: the decimal
expansion with the trailing fractional zero dropped (CPython prints the
shortest round-tripping decimal; for such values that is this string). -/
def reprCents (n : Int) : String :=
  let sign := if n < 0 then "-" else ""
  let m := n.natAbs
  let ip := m / 100
  let fr := m % 100
  let frs := if fr % 10 = 0 then natStr (fr / 10)
    else if fr < 10 then "0" ++ natStr fr else natStr fr
  sign ++ natStr ip ++ "." ++ frs

/-- A source row of the GOLD table as it reaches
`preprocess_gold_data`: the three required columns, with `none` for a
pandas `NaN` entry.  Gross amounts are in exact cents. -/
structure GoldRow where
  order : Option String
  invoice : Option String
  brutto : Option Int
deriving DecidableEq

/-- An aggregated GOLD record (one per order number). -/
structure GoldRecord where
  order : String
  brutto : Int
  invoice : Option String
deriving DecidableEq

/-- Python `gold_df["Nr faktury"].replace("", np.nan)` applied to one entry. -/
def replEmptyInvoice (o : Option String) : Option String :=
  if o = some "" then none else o

/-- Lexicographic code-point comparison of character lists — the string
order Python/pandas uses when sorting group keys. -/
def strLtB : List Char → List Char → Bool
  | [], [] => false
  | [], _ :: _ => true
  | _ :: _, [] => false
  | a :: as, b :: bs => if a = b then strLtB as bs else decide (a.toNat < b.toNat)

/-- Python string `<`. -/
def pyStrLt (a b : String) : Bool := strLtB a.data b.data

/-- Insert into a sorted duplicate-free list of strings. -/
def sortedInsertStr (s : String) : List String → List String
  | [] => [s]
  | h :: t =>
    if s = h then h :: t else if pyStrLt s h then s :: h :: t else h :: sortedInsertStr s t

/-- The distinct order numbers of the rows, sorted ascending — the group
keys of `gold_df.groupby("Nr Zamówienia")` (pandas sorts group keys and
drops rows whose key is `NaN`). -/
def groupKeys (rows : List GoldRow) : List String :=
  rows.foldr (fun r acc => match r.order with | some o => sortedInsertStr o acc | none => acc) []

/-- Python `lambda x: next((val for val in x if pd.notna(val)), x.iloc[-1])`:
first non-null entry, else the last entry (even if null). -/
def firstValidInvoice (l : List (Option String)) : Option String :=
  match l.find? (·.isSome) with
  | some v => v
  | none => l.getLast?.getD none

/-- Python `InvoiceParser.preprocess_gold_data` (`parser.py` lines 161-190):
blank invoice numbers become `NaN`, then rows are grouped by order number;
each group sums its gross amounts (pandas `"sum"` skips `NaN`, an all-`NaN`
group sums to `0.0`) and picks the first non-null invoice number, falling
back to the last entry of the group.  The required-columns check of the Python
function is structural here: a `GoldRow` always has the three columns. -/
def preprocess_gold_data (rows : List GoldRow) : List GoldRecord :=
  (groupKeys rows).map fun k =>
    let grp := rows.filter fun r => r.order == some k
    { order := k
      brutto := (grp.filterMap (·.brutto)).foldl (· + ·) 0
      invoice := firstValidInvoice (grp.map fun r => replEmptyInvoice r.invoice) }

/-- A spreadsheet cell as `pd.read_excel` sees it: empty, text, or a
number (kept in exact cents). -/
inductive Cell : Type where
  | blank : Cell
  | str (s : String) : Cell
  | num (cents : Int) : Cell
deriving DecidableEq

/-- A header cell as a column name. -/
def cellHeaderName : Cell → String
  | .blank => ""
  | .str s => s
  | .num c => reprCents c

/-- A data cell under `dtype=str`: blank stays `NaN` (`none`), a numeric
cell is coerced to its string form. -/
def cellOptStr : Cell → Option String
  | .blank => none
  | .str s => some s
  | .num c => some (reprCents c)

/-- A data cell under `dtype=float`: blank is `NaN` (`none`).  A text cell
would make `pd.read_excel` raise before any of the modelled logic runs; it
is modelled as missing and is not exercised by any claim. -/
def cellCents : Cell → Option Int
  | .blank => none
  | .str _ => none
  | .num c => some c

/-- Python `required_columns` of `load_gold_data` / `preprocess_gold_data`. -/
def required_columns : List String := ["Nr Zamówienia", "Nr faktury", "Brutto"]

/-- A single-quote character (for Python list `repr`). -/
def sglq : String := String.mk [Char.ofNat 39]

/-- Python `repr` of a list of strings, as interpolated by the f-string of
the error message. -/
def pyListRepr (l : List String) : String :=
  "[" ++ String.intercalate ", " (l.map fun s => sglq ++ s ++ sglq) ++ "]"

/-- The `ValueError` message raised for a bad GOLD schema: it interpolates
the full expected column list and the columns actually found. -/
def goldSchemaError (found : List String) : String :=
  "Błąd: brak wymaganych kolumn w pliku GOLD. Oczekiwano " ++ pyListRepr required_columns ++
    ". Znalezione: " ++ pyListRepr found

/-- Python `missing_columns = [col for col in required_columns if col not in gold_df.columns]`. -/
def missing_columns (cols : List String) : List String :=
  required_columns.filter fun c => !(cols.contains c)

/-- Position of a column name in the header. -/
def colIdx (cols : List String) (c : String) : Nat := cols.findIdx (· == c)

/-- One data row of the sheet, read through the declared dtypes into the
three required columns. -/
def rowToGold (cols : List String) (row : List Cell) : GoldRow :=
  { order := ((row.get? (colIdx cols "Nr Zamówienia")).getD Cell.blank) |> cellOptStr
    invoice := ((row.get? (colIdx cols "Nr faktury")).getD Cell.blank) |> cellOptStr
    brutto := ((row.get? (colIdx cols "Brutto")).getD Cell.blank) |> cellCents }

/-- Python `InvoiceParser.load_gold_data` (`parser.py` lines 192-214): read the
sheet skipping the first row (`skiprows=1`, a fixed constant — the
only parameter of the function is the file path), take the next row as the
header, validate the required columns (raising `ValueError` with the
message above), and hand the data rows to `preprocess_gold_data`. -/
def load_gold_data (file : List (List Cell)) : Except String (List GoldRecord) :=
  if missing_columns (((file.drop 1).head?.getD []).map cellHeaderName) = [] then
    Except.ok (preprocess_gold_data (((file.drop 1).drop 1).map
      (rowToGold (((file.drop 1).head?.getD []).map cellHeaderName))))
  else Except.error (goldSchemaError (((file.drop 1).head?.getD []).map cellHeaderName))

/-- The heap of invoice dicts: `compare_with_gold` receives a list of
(addresses of) mutable dicts and writes into them. -/
abbrev Heap := Nat → Dict

/-- Python `str()` of a stored value (`str(None)` is `"None"`,
`str(nan)` is `"nan"`). -/
def pyStrOfEVal : EVal → String
  | .none => "None"
  | .str s => s
  | .num c => reprCents c
  | .nan => "nan"

/-- Python `str(invoice.get(k, ""))`. -/
def invoiceGetStr (d : Dict) (k : String) : String :=
  match dictGet? d k with
  | some v => pyStrOfEVal v
  | none => ""

/-- The `Nr faktury` value of a GOLD record as it sits in `gold_dict`
(a missing invoice number is the float `nan`). -/
def goldInvoiceEVal : Option String → EVal
  | some s => EVal.str s
  | none => EVal.nan

/-- The loop body of `InvoiceParser.compare_with_gold` for one invoice
dict: look the stripped order number up in `gold_dict` and write the three
comparison keys into the dict (`gold.find?` is the `gold_dict` lookup; the
preprocessed ledger has one record per order). -/
def enrichInvoice (gold : List GoldRecord) (inv : Dict) : Dict :=
  match gold.find? fun r =>
      r.order == String.mk (pyStrip (invoiceGetStr inv "Numer zamówienia").data) with
  | some g =>
    dictSet (dictSet (dictSet inv "Brutto GOLD" (EVal.num g.brutto))
      "Nr faktury GOLD" (goldInvoiceEVal g.invoice)) "Brutto zgodne?"
      (EVal.str (if invoiceGetStr inv "Brutto" = reprCents g.brutto then "TAK" else "NIE"))
  | none =>
    dictSet (dictSet (dictSet inv "Brutto GOLD" (EVal.str "Brak w GOLD"))
      "Nr faktury GOLD" (EVal.str "Brak w GOLD")) "Brutto zgodne?" (EVal.str "NIE")

/-- Python `InvoiceParser.compare_with_gold` (`parser.py` lines 216-245): iterate
over the invoice dicts, writing the comparison keys into each one in
place, and return the same list.  The heap records the contents of every
dict; the returned list is the argument list itself. -/
def compare_with_gold (heap : Heap) (invoices : List Nat) (gold : List GoldRecord) :
    Heap × List Nat :=
  (invoices.foldl (fun h a => fun x => if x = a then enrichInvoice gold (h a) else h x) heap,
   invoices)

theorem dictGet?_dictSet_self (d : Dict) (k : String) (v : EVal) :
    dictGet? (dictSet d k v) k = some v := by
  induction d with
  | nil => simp [dictSet, dictGet?]
  | cons kv t ih =>
    obtain ⟨k', v'⟩ := kv
    by_cases h : k' = k
    · simp [dictSet, dictGet?, h]
    · simp [dictSet, dictGet?, h, ih]

theorem dictGet?_dictSet_ne (d : Dict) (k' k : String) (v : EVal) (h : k' ≠ k) :
    dictGet? (dictSet d k' v) k = dictGet? d k := by
  induction d with
  | nil => simp [dictSet, dictGet?, h]
  | cons kv t ih =>
    obtain ⟨k₀, v₀⟩ := kv
    by_cases h0 : k₀ = k'
    · subst h0
      simp [dictSet, dictGet?, h]
    · by_cases h1 : k₀ = k <;>
        simp [dictSet, dictGet?, h0, h1, ih, Ne.symm h]

theorem foldlSet_get_not_mem (f : String → EVal) (fields : List String) (d : Dict)
    (key : String) (h : key ∉ fields) :
    dictGet? (fields.foldl (fun d k => dictSet d k (f k)) d) key = dictGet? d key := by
  induction fields generalizing d with
  | nil => rfl
  | cons k fs ih =>
    have hk : k ≠ key := fun hk => h (hk ▸ List.mem_cons_self k fs)
    have hfs : key ∉ fs := fun hm => h (List.mem_cons_of_mem _ hm)
    simp only [List.foldl_cons]
    rw [ih _ hfs, dictGet?_dictSet_ne _ _ _ _ hk]

theorem foldlSet_get_mem (f : String → EVal) (fields : List String) (d : Dict)
    (key : String) (h : key ∈ fields) :
    dictGet? (fields.foldl (fun d k => dictSet d k (f k)) d) key = some (f key) := by
  induction fields generalizing d with
  | nil => cases h
  | cons k fs ih =>
    simp only [List.foldl_cons]
    by_cases hfs : key ∈ fs
    · exact ih _ hfs
    · have hk : k = key := by
        rcases List.mem_cons.mp h with h' | h'
        · exact h'.symm
        · exact absurd h' hfs
      rw [foldlSet_get_not_mem f fs _ key hfs, hk, dictGet?_dictSet_self]

/-- The value of a requested field in the extraction result is exactly
`extractField` (the supplier tag write only touches the key `supplier`). -/
theorem extract_data_get (text supplier : String) (fields : List String) (key : String)
    (hmem : key ∈ fields) (hsup : key ≠ "supplier") :
    dictGet? (extract_data text supplier fields) key =
      some (extractField text supplier key) := by
  unfold extract_data
  rw [dictGet?_dictSet_ne _ _ _ _ (Ne.symm hsup)]
  exact foldlSet_get_mem _ fields _ key hmem

/-- The supplier tag is always recorded verbatim. -/
theorem extract_data_supplier (text supplier : String) (fields : List String) :
    dictGet? (extract_data text supplier fields) "supplier" = some (EVal.str supplier) := by
  unfold extract_data
  exact dictGet?_dictSet_self _ _ _

/-- C1 (amended): for every extraction call, a requested numeric-class
field (name containing `net`, `vat` or `total`) is stored as `null`, as a
`clean_number` output (a finite decimal in whole cents, i.e. rounded to 2
fractional digits), or — when the matched group trims to the empty string,
which the truthiness test exempts from normalization — as the raw empty
string. -/
theorem C1_numeric_store (text supplier : String) (fields : List String) (key : String)
    (hmem : key ∈ fields) (hnum : isNumericKey key = true) :
    ∃ v, dictGet? (extract_data text supplier fields) key = some v ∧
      (v = EVal.none ∨ v = EVal.str "" ∨
        ∃ s n, _search_patterns text
            (dictFind ((dictFind SUPPLIER_PATTERNS supplier).getD []) key)
            (dictFind ((dictFind ALTERNATIVE_PATTERNS supplier).getD []) key) = some s ∧
          s ≠ "" ∧ clean_number s = some n ∧ v = EVal.num (n : Int) ∧
          centsQ (n : Int) = (n : ℚ) / 100) := by
  have hks : key ≠ "supplier" := by
    intro h
    rw [h] at hnum
    exact absurd hnum (by decide)
  refine ⟨extractField text supplier key, extract_data_get text supplier fields key hmem hks, ?_⟩
  unfold extractField
  split
  · exact Or.inl rfl
  · next s hsome =>
    by_cases hse : s = ""
    · subst hse
      simp
    · rw [if_neg hse, if_pos hnum]
      split
      · next n hc => exact Or.inr (Or.inr ⟨s, n, hsome, hse, hc, rfl, rfl⟩)
      · exact Or.inl rfl

/-- C1 counterexample: on the text `"23%  "` the MAG pattern for the
numeric field `VAT 23%` matches with a group that strips to the empty
string, and the stored value is that raw string — neither `null` nor a
normalized decimal. -/
theorem C1_counterexample :
    isNumericKey "VAT 23%" = true ∧
    tryPattern "23%  "
      (dictFind ((dictFind SUPPLIER_PATTERNS "MAG Dystrybucja").getD []) "VAT 23%") =
        some "" ∧
    dictGet? (extract_data "23%  " "MAG Dystrybucja" ["VAT 23%"]) "VAT 23%" =
      some (EVal.str "") ∧
    EVal.str "" ≠ EVal.none := by
  refine ⟨by decide, ?_, by decide, by decide⟩
  decide

/-- C1 witness: the numeric field `VAT 5%` requested on a text it does not
match. -/
theorem C1_witness :
    "VAT 5%" ∈ ["VAT 5%"] ∧ isNumericKey "VAT 5%" = true ∧
    (∃ v, dictGet? (extract_data "x" "MAG Dystrybucja" ["VAT 5%"]) "VAT 5%" = some v ∧
      (v = EVal.none ∨ v = EVal.str "" ∨
        ∃ s n, _search_patterns "x"
            (dictFind ((dictFind SUPPLIER_PATTERNS "MAG Dystrybucja").getD []) "VAT 5%")
            (dictFind ((dictFind ALTERNATIVE_PATTERNS "MAG Dystrybucja").getD [])
              "VAT 5%") = some s ∧
          s ≠ "" ∧ clean_number s = some n ∧ v = EVal.num (n : Int) ∧
          centsQ (n : Int) = (n : ℚ) / 100)) :=
  ⟨by decide, by decide,
   C1_numeric_store "x" "MAG Dystrybucja" ["VAT 5%"] "VAT 5%" (by decide) (by decide)⟩

/-- C6 (amended): extraction is total and, for a supplier identifier
absent from the registry, every requested field other than one literally
named `supplier` resolves to `null`; the `supplier` entry always holds the
tag of the caller verbatim (so a requested field named `supplier` is
overwritten by the tag rather than left `null`). -/
theorem C6_unknown_supplier (text supplier : String) (fields : List String)
    (hp : dictFind SUPPLIER_PATTERNS supplier = none)
    (ha : dictFind ALTERNATIVE_PATTERNS supplier = none) :
    (∀ key ∈ fields, key ≠ "supplier" →
      dictGet? (extract_data text supplier fields) key = some EVal.none) ∧
    dictGet? (extract_data text supplier fields) "supplier" = some (EVal.str supplier) := by
  refine ⟨fun key hk hks => ?_, extract_data_supplier text supplier fields⟩
  rw [extract_data_get text supplier fields key hk hks]
  unfold extractField
  rw [hp, ha]
  rfl

/-- C6 witness: the unknown supplier `"ZZZ"` requesting
`["invoice_number"]` yields a `null` field and the verbatim tag. -/
theorem C6_witness :
    dictGet? (extract_data "" "ZZZ" ["invoice_number"]) "invoice_number" = some EVal.none ∧
    dictGet? (extract_data "" "ZZZ" ["invoice_number"]) "supplier" =
      some (EVal.str "ZZZ") :=
  ⟨(C6_unknown_supplier "" "ZZZ" ["invoice_number"] rfl rfl).1 "invoice_number"
      (by decide) (by decide),
   (C6_unknown_supplier "" "ZZZ" ["invoice_number"] rfl rfl).2⟩

/-- C6 counterexample: with the unknown supplier `"ZZZ"`, the requested
field literally named `supplier` does not resolve to `null` — the supplier
tag write overwrites it. -/
theorem C6_counterexample :
    dictFind SUPPLIER_PATTERNS "ZZZ" = none ∧
    "supplier" ∈ ["supplier"] ∧
    dictGet? (extract_data "" "ZZZ" ["supplier"]) "supplier" = some (EVal.str "ZZZ") ∧
    EVal.str "ZZZ" ≠ EVal.none :=
  ⟨rfl, by decide, by decide, by decide⟩

theorem matchList_cls_nil (p : Char → Bool) (f : Nat) :
    matchList (.cls p) [] f = [] := rfl

theorem matchList_cls_cons (p : Char → Bool) (c : Char) (t : List Char) (f : Nat) :
    matchList (.cls p) (c :: t) f = if p c then [([c], t, [])] else [] := rfl

theorem mem_matchList_cat {r1 r2 : Regex} {l : List Char} {f : Nat} {m : MRes} :
    m ∈ matchList (.cat r1 r2) l f ↔
      ∃ m1 ∈ matchList r1 l f, ∃ m2 ∈ matchList r2 m1.2.1 f,
        m = (m1.1 ++ m2.1, m2.2.1, m1.2.2 ++ m2.2.2) := by
  simp only [matchList, List.mem_flatMap, List.mem_map]
  constructor
  · rintro ⟨m1, h1, m2, h2, rfl⟩
    exact ⟨m1, h1, m2, h2, rfl⟩
  · rintro ⟨m1, h1, m2, h2, rfl⟩
    exact ⟨m1, h1, m2, h2, rfl⟩

theorem starMatches_suffix (mf : List Char → List MRes)
    (hmf : ∀ l' m', m' ∈ mf l' → m'.2.1 <:+ l') :
    ∀ (fuel : Nat) (l : List Char) (m : MRes), m ∈ starMatches mf fuel l → m.2.1 <:+ l := by
  intro fuel
  induction fuel with
  | zero =>
    intro l m hm
    simp only [starMatches, List.mem_singleton] at hm
    rw [hm]
  | succ k ih =>
    intro l m hm
    simp only [starMatches, List.mem_append, List.mem_singleton, List.mem_flatMap] at hm
    rcases hm with ⟨m1, hm1, hmm⟩ | hm
    · by_cases he : m1.1 = []
      · rw [if_pos he] at hmm
        exact absurd hmm (List.not_mem_nil m)
      · rw [if_neg he] at hmm
        rw [List.mem_map] at hmm
        obtain ⟨m2, hm2, rfl⟩ := hmm
        exact (ih m1.2.1 m2 hm2).trans (hmf l m1 hm1)
    · rw [hm]

theorem starLMatches_suffix (mf : List Char → List MRes)
    (hmf : ∀ l' m', m' ∈ mf l' → m'.2.1 <:+ l') :
    ∀ (fuel : Nat) (l : List Char) (m : MRes), m ∈ starLMatches mf fuel l → m.2.1 <:+ l := by
  intro fuel
  induction fuel with
  | zero =>
    intro l m hm
    simp only [starLMatches, List.mem_singleton] at hm
    rw [hm]
  | succ k ih =>
    intro l m hm
    simp only [starLMatches, List.mem_cons, List.mem_flatMap] at hm
    rcases hm with hm | ⟨m1, hm1, hmm⟩
    · rw [hm]
    · by_cases he : m1.1 = []
      · rw [if_pos he] at hmm
        exact absurd hmm (List.not_mem_nil m)
      · rw [if_neg he] at hmm
        rw [List.mem_map] at hmm
        obtain ⟨m2, hm2, rfl⟩ := hmm
        exact (ih m1.2.1 m2 hm2).trans (hmf l m1 hm1)

/-- Soundness of the matcher: the remainder of any match is a suffix of the
input. -/
theorem matchList_suffix (r : Regex) :
    ∀ (f : Nat) (l : List Char) (m : MRes), m ∈ matchList r l f → m.2.1 <:+ l := by
  induction r with
  | eps =>
    intro f l m hm
    simp only [matchList, List.mem_singleton] at hm
    rw [hm]
  | cls p =>
    intro f l m hm
    cases l with
    | nil => exact absurd hm (List.not_mem_nil m)
    | cons c t =>
      rw [matchList_cls_cons] at hm
      by_cases hp : p c
      · rw [if_pos hp] at hm
        rw [List.mem_singleton] at hm
        rw [hm]
        exact List.suffix_cons c t
      · rw [if_neg hp] at hm
        exact absurd hm (List.not_mem_nil m)
  | cat r1 r2 ih1 ih2 =>
    intro f l m hm
    rw [mem_matchList_cat] at hm
    obtain ⟨m1, h1, m2, h2, rfl⟩ := hm
    exact (ih2 f m1.2.1 m2 h2).trans (ih1 f l m1 h1)
  | alt r1 r2 ih1 ih2 =>
    intro f l m hm
    rw [matchList] at hm
    rcases List.mem_append.mp hm with h | h
    · exact ih1 f l m h
    · exact ih2 f l m h
  | group r ih =>
    intro f l m hm
    rw [matchList, List.mem_map] at hm
    obtain ⟨m', hm', rfl⟩ := hm
    exact ih f l m' hm'
  | star r ih =>
    intro f l m hm
    rw [matchList] at hm
    exact starMatches_suffix _ (fun l' m' h' => ih f l' m' h') f l m hm
  | starL r ih =>
    intro f l m hm
    rw [matchList] at hm
    exact starLMatches_suffix _ (fun l' m' h' => ih f l' m' h') f l m hm

/-- A concatenation starting with a comma literal cannot match in
comma-free text. -/
theorem matchList_comma_cat_empty (r : Regex) (l : List Char) (f : Nat)
    (h : ',' ∉ l) : matchList (.cat (rlit1 ',') r) l f = [] := by
  rw [List.eq_nil_iff_forall_not_mem]
  intro m hm
  rw [mem_matchList_cat] at hm
  obtain ⟨m1, h1, _, _, _⟩ := hm
  cases l with
  | nil => exact absurd h1 (List.not_mem_nil m1)
  | cons c t =>
    rw [rlit1, matchList_cls_cons] at h1
    by_cases hc : c = ','
    · exact h (hc ▸ List.mem_cons_self c t)
    · rw [if_neg (by simpa using hc)] at h1
      exact absurd h1 (List.not_mem_nil m1)

theorem matchList_cat_empty_of_right (r1 r2 : Regex) (l : List Char) (f : Nat)
    (h : ∀ l', l' <:+ l → matchList r2 l' f = []) :
    matchList (.cat r1 r2) l f = [] := by
  rw [List.eq_nil_iff_forall_not_mem]
  intro m hm
  rw [mem_matchList_cat] at hm
  obtain ⟨m1, h1, m2, h2, _⟩ := hm
  rw [h m1.2.1 (matchList_suffix r1 f l m1 h1)] at h2
  exact absurd h2 (List.not_mem_nil m2)

theorem matchList_rdig_nil (f : Nat) : matchList rdig [] f = [] := rfl

theorem matchList_rdig_nondigit (c : Char) (t : List Char) (f : Nat)
    (h : isDigitA c = false) : matchList rdig (c :: t) f = [] := by
  show matchList (.cls isDigitA) (c :: t) f = []
  rw [matchList_cls_cons, if_neg (by simp [h])]

theorem matchList_rdig_digit (c : Char) (t : List Char) (f : Nat)
    (h : isDigitA c = true) : matchList rdig (c :: t) f = [([c], t, [])] := by
  show matchList (.cls isDigitA) (c :: t) f = [([c], t, [])]
  rw [matchList_cls_cons, if_pos h]

/-- The grouped-digits-with-comma alternative cannot match comma-free
text. -/
theorem numAlt1_empty (l : List Char) (f : Nat) (h : ',' ∉ l) :
    matchList numAlt1 l f = [] := by
  show matchList (.cat rdig (.cat (ropt (rcats [rdig, ropt rdig]))
    (.cat (.star (rcats [.cls (fun c => c = ' ' || c = '.'), rrep rdig 3]))
      (.cat (rlit1 ',') (.cat (rplus rdig) .eps))))) l f = []
  apply matchList_cat_empty_of_right
  intro l1 hl1
  apply matchList_cat_empty_of_right
  intro l2 hl2
  apply matchList_cat_empty_of_right
  intro l3 hl3
  apply matchList_comma_cat_empty
  intro hc
  exact h (((hl3.trans hl2).trans hl1).mem hc)

/-- At a non-digit character no alternative of the number pattern can
start. -/
theorem matchList_numberRegex_nondigit (c : Char) (t : List Char) (f : Nat)
    (h : isDigitA c = false) : matchList numberRegex (c :: t) f = [] := by
  have hr := matchList_rdig_nondigit c t f h
  have h1 : matchList numAlt1 (c :: t) f = [] := by
    show (matchList rdig (c :: t) f).flatMap _ = []
    rw [hr]
    rfl
  have h2 : matchList (rplus rdig) (c :: t) f = [] := by
    show (matchList rdig (c :: t) f).flatMap _ = []
    rw [hr]
    rfl
  show matchList numAlt1 (c :: t) f ++ matchList (rplus rdig) (c :: t) f = []
  rw [h1, h2]
  rfl

theorem matchList_numberRegex_nil (f : Nat) : matchList numberRegex [] f = [] := rfl

/-- Greedy star over a digit class consumes exactly the leading digit run:
the preferred (head) iteration result takes all of `d` and stops at
`rest`. -/
theorem starMatches_digits (F : Nat) :
    ∀ (d : List Char) (fuel : Nat) (rest : List Char),
      (∀ c ∈ d, isDigitA c = true) →
      (∀ c, rest.head? = some c → isDigitA c = false) →
      d.length + 1 ≤ fuel →
      (starMatches (fun l' => matchList rdig l' F) fuel (d ++ rest)).head? =
        some (d, rest, []) := by
  intro d
  induction d with
  | nil =>
    intro fuel rest _ hrest hf
    cases fuel with
    | zero => exact absurd hf (by omega)
    | succ k =>
      have hmr : matchList rdig rest F = [] := by
        cases rest with
        | nil => rfl
        | cons c t => exact matchList_rdig_nondigit c t F (hrest c rfl)
      simp [starMatches, hmr]
  | cons c d' ih =>
    intro fuel rest hd hrest hf
    cases fuel with
    | zero => exact absurd hf (by simp at hf)
    | succ k =>
      have hdc : isDigitA c = true := hd c (List.mem_cons_self c d')
      have hmr : matchList rdig (c :: (d' ++ rest)) F = [([c], d' ++ rest, [])] :=
        matchList_rdig_digit c _ F hdc
      have hih := ih k rest (fun x hx => hd x (List.mem_cons_of_mem c hx)) hrest
        (by simpa using Nat.succ_le_succ_iff.mp hf)
      show (starMatches (fun l' => matchList rdig l' F) (k + 1) (c :: (d' ++ rest))).head? =
        some (c :: d', rest, [])
      rw [starMatches, hmr]
      simp [List.head?_append, List.head?_map, hih]

/-- No digit in the remainder: the digit run cannot continue. -/
theorem dropWhile_head_nondigit (t : List Char) :
    ∀ c, (t.dropWhile isDigitA).head? = some c → isDigitA c = false := by
  intro c' hc'
  have hne : t.dropWhile isDigitA ≠ [] := by
    intro h0
    rw [h0] at hc'
    cases hc'
  have hh := List.head_dropWhile_not isDigitA t hne
  rw [List.head?_eq_head hne] at hc'
  cases hc'
  exact hh

/-- Greedy digit star on any text: the preferred result is the leading
digit run. -/
theorem starMatches_digits_run (F fuel : Nat) (t : List Char)
    (hf : t.length + 1 ≤ fuel) :
    (starMatches (fun l' => matchList rdig l' F) fuel t).head? =
      some (t.takeWhile isDigitA, t.dropWhile isDigitA, []) := by
  have h := starMatches_digits F (t.takeWhile isDigitA) fuel (t.dropWhile isDigitA)
    (fun x hx => List.mem_takeWhile_imp hx)
    (dropWhile_head_nondigit t)
    (by
      have hlen : (t.takeWhile isDigitA).length ≤ t.length :=
        (List.takeWhile_sublist isDigitA).length_le
      omega)
  rwa [List.takeWhile_append_dropWhile] at h

/-- At a digit in comma-free text, the preferred match of the number
pattern is the digit run starting there (the comma alternative is dead and
`\d+` is greedy). -/
theorem headMatch_numberRegex_digit (c : Char) (t : List Char)
    (hdg : isDigitA c = true) (hc : ',' ∉ c :: t) :
    headMatch numberRegex (c :: t) = some (c :: t.takeWhile isDigitA, []) := by
  unfold headMatch
  have h1 : matchList numAlt1 (c :: t) ((c :: t).length + 1) = [] :=
    numAlt1_empty _ _ hc
  have hr : matchList rdig (c :: t) ((c :: t).length + 1) = [([c], t, [])] :=
    matchList_rdig_digit c t _ hdg
  have hstar := starMatches_digits_run ((c :: t).length + 1) ((c :: t).length + 1) t
    (by simp [List.length_cons])
  show Option.map (fun m => (m.1, m.2.2))
      ((matchList numAlt1 (c :: t) ((c :: t).length + 1) ++
        matchList (rplus rdig) (c :: t) ((c :: t).length + 1)).head?) =
    some (c :: t.takeWhile isDigitA, ([] : List (List Char)))
  rw [h1, List.nil_append]
  show Option.map (fun m => (m.1, m.2.2))
      (((matchList rdig (c :: t) ((c :: t).length + 1)).flatMap fun m1 =>
        (starMatches (fun l' => matchList rdig l' ((c :: t).length + 1))
            ((c :: t).length + 1) m1.2.1).map fun m2 =>
          (m1.1 ++ m2.1, m2.2.1, m1.2.2 ++ m2.2.2)).head?) =
    some (c :: t.takeWhile isDigitA, ([] : List (List Char)))
  rw [hr, List.flatMap_cons, List.flatMap_nil, List.append_nil, List.head?_map, hstar]
  rfl

/-- Python `re.search` of the number pattern on comma-free text with a digit:
the result is the leftmost maximal digit run, with no captures. -/
theorem searchList_numberRegex_some (l : List Char) (hc : ',' ∉ l)
    (hd : ∃ c ∈ l, isDigitA c = true) :
    searchList numberRegex l =
      some ((l.dropWhile fun c => !(isDigitA c)).takeWhile isDigitA, []) := by
  induction l with
  | nil => simp at hd
  | cons c t ih =>
    by_cases hdg : isDigitA c
    · rw [searchList, headMatch_numberRegex_digit c t hdg hc]
      simp [List.dropWhile_cons, List.takeWhile_cons, hdg]
    · have hdgf : isDigitA c = false := by simpa using hdg
      have hh : headMatch numberRegex (c :: t) = none := by
        unfold headMatch
        rw [matchList_numberRegex_nondigit c t _ hdgf]
        rfl
      rw [searchList, hh]
      have hc' : ',' ∉ t := fun h => hc (List.mem_cons_of_mem c h)
      have hd' : ∃ x ∈ t, isDigitA x = true := by
        obtain ⟨x, hx, hxd⟩ := hd
        rcases List.mem_cons.mp hx with h | h
        · rw [h] at hxd
          rw [hxd] at hdgf
          cases hdgf
        · exact ⟨x, h, hxd⟩
      rw [ih hc' hd']
      simp [List.dropWhile_cons, hdgf]

/-- Python `re.search` of the number pattern fails on digit-free text. -/
theorem searchList_numberRegex_none (l : List Char)
    (h : ∀ c ∈ l, isDigitA c = false) : searchList numberRegex l = none := by
  induction l with
  | nil => rfl
  | cons c t ih =>
    have hh : headMatch numberRegex (c :: t) = none := by
      unfold headMatch
      rw [matchList_numberRegex_nondigit c t _ (h c (List.mem_cons_self c t))]
      rfl
    rw [searchList, hh]
    exact ih fun x hx => h x (List.mem_cons_of_mem c hx)

theorem digit_not_space_dot (c : Char) (h : isDigitA c = true) :
    (!(c = ' ' || c = '.')) = true := by
  by_cases h1 : c = ' '
  · rw [h1] at h
    exact absurd h (by decide)
  · by_cases h2 : c = '.'
    · rw [h2] at h
      exact absurd h (by decide)
    · simp [h1, h2]

theorem digit_ne_comma (c : Char) (h : isDigitA c = true) : ¬ c = ',' := by
  intro h1
  rw [h1] at h
  exact absurd h (by decide)

theorem parseDec_digits (l : List Char) (h : ∀ c ∈ l, isDigitA c = true) :
    parseDec l = (natOfDigits l, 0) := by
  unfold parseDec
  rw [List.dropWhile_eq_nil_iff.mpr h, List.takeWhile_eq_self_iff.mpr h]

theorem round2cents_int (n : Nat) : round2cents (n, 0) = n * 100 := by
  unfold round2cents
  norm_num

/-- C7: `clean_number` is total (it is a Lean function) and returns
either a decimal with exactly two fractional digits (a whole number of
cents: `100 * value` is an integer) or `None`; it returns `None` on the
empty string and on digit-free input; and
`normalize("1 234,56") = 1234.56`, `normalize("23,00") = 23.00`,
`normalize("") = None`, `normalize("no digits here") = None`. -/
theorem C7_clean_number :
    (∀ s : String, clean_number s = none ∨
      ∃ n : Nat, clean_number s = some n ∧ (100 * centsQ (n : Int)).den = 1) ∧
    clean_number "" = none ∧
    (∀ s : String, (∀ c ∈ s.data, isDigitA c = false) → clean_number s = none) ∧
    (clean_number "1 234,56" = some 123456 ∧ centsQ 123456 = 1234.56) ∧
    (clean_number "23,00" = some 2300 ∧ centsQ 2300 = 23.00) ∧
    clean_number "no digits here" = none := by
  refine ⟨?_, by decide, ?_, ⟨by decide, by norm_num [centsQ]⟩,
    ⟨by decide, by norm_num [centsQ]⟩, by decide⟩
  · intro s
    rcases h : clean_number s with _ | n
    · exact Or.inl rfl
    · refine Or.inr ⟨n, rfl, ?_⟩
      have h2 : 100 * centsQ (n : Int) = ((n : Int) : ℚ) := by
        unfold centsQ
        field_simp
      rw [h2]
      exact_mod_cast Rat.den_natCast n
  · intro s hs
    unfold clean_number
    by_cases he : s = ""
    · rw [if_pos he]
    · rw [if_neg he]
      unfold reSearch
      rw [searchList_numberRegex_none s.data hs]

/-- C7 witness at a digit-free input. -/
theorem C7_witness : clean_number "abc" = none :=
  C7_clean_number.2.2.1 "abc" (by decide)

/-- C10: on comma-free input containing a digit, `clean_number`
returns the numeric value of the leftmost maximal digit run (space and
period terminate the match rather than group digits), so
`clean_number("1.234") = 1.0` and `clean_number("1234.56") = 1234.0`. -/
theorem C10_no_comma_digit_run :
    (∀ s : String, ',' ∉ s.data → (∃ c ∈ s.data, isDigitA c = true) →
      clean_number s = some (natOfDigits
        ((s.data.dropWhile fun c => !(isDigitA c)).takeWhile isDigitA) * 100)) ∧
    clean_number "1.234" = some 100 ∧
    clean_number "1234.56" = some 123400 ∧
    centsQ 100 = 1 ∧ centsQ 123400 = 1234 := by
  refine ⟨?_, by decide, by decide, by norm_num [centsQ], by norm_num [centsQ]⟩
  intro s hc hd
  have hne : s ≠ "" := by
    intro h
    rw [h] at hd
    obtain ⟨c, hcm, _⟩ := hd
    exact absurd hcm (List.not_mem_nil c)
  unfold clean_number
  rw [if_neg hne]
  unfold reSearch
  rw [searchList_numberRegex_some s.data hc hd]
  have hrd : ∀ c ∈ (s.data.dropWhile fun c => !(isDigitA c)).takeWhile isDigitA,
      isDigitA c = true := fun c hx => List.mem_takeWhile_imp hx
  show some (round2cents (parseDec
    ((((s.data.dropWhile fun c => !(isDigitA c)).takeWhile isDigitA).filter
        fun c => !(c = ' ' || c = '.')).map fun c => if c = ',' then '.' else c))) = _
  rw [List.filter_eq_self.mpr fun a ha => digit_not_space_dot a (hrd a ha)]
  have hmap : ((s.data.dropWhile fun c => !(isDigitA c)).takeWhile isDigitA).map
      (fun c => if c = ',' then '.' else c) =
      (s.data.dropWhile fun c => !(isDigitA c)).takeWhile isDigitA := by
    conv_rhs => rw [← List.map_id ((s.data.dropWhile fun c => !(isDigitA c)).takeWhile isDigitA)]
    apply List.map_congr_left
    intro a ha
    rw [if_neg (digit_ne_comma a (hrd a ha))]
    rfl
  rw [hmap, parseDec_digits _ hrd, round2cents_int]

/-- C10 witness: `"1x23"` has no comma; the leftmost digit run is
`"1"`, so the result is `1.00`. -/
theorem C10_witness : clean_number "1x23" = some (natOfDigits
    (((String.data "1x23").dropWhile fun c => !(isDigitA c)).takeWhile isDigitA) * 100) :=
  C10_no_comma_digit_run.1 "1x23" (by decide) (by decide)

theorem charEqOfToNatEq {a b : Char} (h : a.toNat = b.toNat) : a = b :=
  Char.ext (UInt32.ext h)

theorem stringDataNe {a b : String} (h : a ≠ b) : a.data ≠ b.data := by
  intro hd
  apply h
  cases a
  cases b
  exact congrArg String.mk hd

theorem strLtB_irrefl : ∀ l : List Char, strLtB l l = false
  | [] => rfl
  | a :: as => by simp [strLtB, strLtB_irrefl as]

theorem strLtB_total : ∀ a b : List Char, a ≠ b → strLtB a b = true ∨ strLtB b a = true
  | [], [], h => absurd rfl h
  | [], _ :: _, _ => Or.inl rfl
  | _ :: _, [], _ => Or.inr rfl
  | a :: as, b :: bs, h => by
    by_cases hab : a = b
    · subst hab
      have ht : as ≠ bs := fun he => h (he ▸ rfl)
      rcases strLtB_total as bs ht with h1 | h1
      · exact Or.inl (by simp [strLtB, h1])
      · exact Or.inr (by simp [strLtB, h1])
    · rcases Nat.lt_trichotomy a.toNat b.toNat with hlt | heq | hgt
      · exact Or.inl (by simp [strLtB, hab, hlt])
      · exact absurd (charEqOfToNatEq heq) hab
      · exact Or.inr (by simp [strLtB, Ne.symm hab, hgt])

theorem strLtB_trans : ∀ a b c : List Char,
    strLtB a b = true → strLtB b c = true → strLtB a c = true
  | [], [], _, h1, _ => by simp [strLtB] at h1
  | [], _ :: _, [], _, h2 => by simp [strLtB] at h2
  | [], _ :: _, _ :: _, _, _ => rfl
  | _ :: _, [], _, h1, _ => by simp [strLtB] at h1
  | _ :: _, _ :: _, [], _, h2 => by simp [strLtB] at h2
  | a :: as, b :: bs, c :: cs, h1, h2 => by
    by_cases hab : a = b <;> by_cases hbc : b = c
    · subst hab
      subst hbc
      simp only [strLtB, if_pos rfl] at h1 h2 ⊢
      exact strLtB_trans as bs cs h1 h2
    · subst hab
      simp only [strLtB, if_neg hbc] at h2
      simp only [strLtB, if_neg hbc]
      exact h2
    · subst hbc
      simp only [strLtB, if_neg hab] at h1
      simp only [strLtB, if_neg hab]
      exact h1
    · simp only [strLtB, if_neg hab] at h1
      simp only [strLtB, if_neg hbc] at h2
      rw [decide_eq_true_eq] at h1 h2
      have hac : ¬ a = c := by
        intro he
        subst he
        omega
      simp only [strLtB, if_neg hac, decide_eq_true_eq]
      omega

theorem pyStrLt_trans (a b c : String) (h1 : pyStrLt a b = true) (h2 : pyStrLt b c = true) :
    pyStrLt a c = true := strLtB_trans a.data b.data c.data h1 h2

theorem mem_sortedInsertStr (s x : String) :
    ∀ l : List String, x ∈ sortedInsertStr s l ↔ x = s ∨ x ∈ l
  | [] => by simp [sortedInsertStr]
  | h :: t => by
    by_cases h1 : s = h
    · subst h1
      simp only [sortedInsertStr, if_pos rfl]
      simp [List.mem_cons]
    · by_cases h2 : pyStrLt s h = true
      · simp only [sortedInsertStr, if_neg h1, if_pos h2]
        simp [List.mem_cons]
      · simp only [sortedInsertStr, if_neg h1, if_neg h2]
        simp [List.mem_cons, mem_sortedInsertStr s x t]
        tauto

theorem pairwise_sortedInsertStr (s : String) :
    ∀ l : List String, l.Pairwise (fun a b => pyStrLt a b = true) →
      (sortedInsertStr s l).Pairwise (fun a b => pyStrLt a b = true)
  | [], _ => by simp [sortedInsertStr]
  | h :: t, hp => by
    rw [List.pairwise_cons] at hp
    obtain ⟨hh, ht⟩ := hp
    by_cases h1 : s = h
    · subst h1
      simp only [sortedInsertStr, if_pos rfl]
      exact List.pairwise_cons.mpr ⟨hh, ht⟩
    · by_cases h2 : pyStrLt s h = true
      · simp only [sortedInsertStr, if_neg h1, if_pos h2]
        rw [List.pairwise_cons]
        refine ⟨?_, List.pairwise_cons.mpr ⟨hh, ht⟩⟩
        intro b hb
        rcases List.mem_cons.mp hb with rfl | hb'
        · exact h2
        · exact pyStrLt_trans s h b h2 (hh b hb')
      · simp only [sortedInsertStr, if_neg h1, if_neg h2]
        rw [List.pairwise_cons]
        refine ⟨?_, pairwise_sortedInsertStr s t ht⟩
        intro b hb
        rcases (mem_sortedInsertStr s b t).mp hb with hbs | hb'
        · rcases strLtB_total s.data h.data (stringDataNe h1) with hx | hx
          · exact absurd hx h2
          · exact hbs ▸ hx
        · exact hh b hb'

theorem nodup_of_pairwise_lt (l : List String)
    (h : l.Pairwise (fun a b => pyStrLt a b = true)) : l.Nodup := by
  refine h.imp ?_
  intro a b hr he
  subst he
  rw [show pyStrLt a a = strLtB a.data a.data from rfl, strLtB_irrefl] at hr
  cases hr

theorem groupKeys_pairwise :
    ∀ rows : List GoldRow, (groupKeys rows).Pairwise (fun a b => pyStrLt a b = true)
  | [] => List.Pairwise.nil
  | r :: t => by
    show (match r.order with
      | some o => sortedInsertStr o (groupKeys t)
      | none => groupKeys t).Pairwise (fun a b => pyStrLt a b = true)
    rcases r.order with _ | o
    · exact groupKeys_pairwise t
    · exact pairwise_sortedInsertStr o (groupKeys t) (groupKeys_pairwise t)

theorem mem_groupKeys (o : String) :
    ∀ rows : List GoldRow, o ∈ groupKeys rows ↔ ∃ r ∈ rows, r.order = some o
  | [] => by simp [groupKeys]
  | r :: t => by
    show o ∈ (match r.order with
      | some o' => sortedInsertStr o' (groupKeys t)
      | none => groupKeys t) ↔ _
    rcases hro : r.order with _ | o'
    · rw [mem_groupKeys o t]
      constructor
      · rintro ⟨r', hr', ho'⟩
        exact ⟨r', List.mem_cons_of_mem r hr', ho'⟩
      · rintro ⟨r', hr', ho'⟩
        rcases List.mem_cons.mp hr' with rfl | hr''
        · rw [hro] at ho'
          cases ho'
        · exact ⟨r', hr'', ho'⟩
    · rw [mem_sortedInsertStr, mem_groupKeys o t]
      constructor
      · rintro (rfl | ⟨r', hr', ho''⟩)
        · exact ⟨r, List.mem_cons_self r t, hro⟩
        · exact ⟨r', List.mem_cons_of_mem r hr', ho''⟩
      · rintro ⟨r', hr', ho''⟩
        rcases List.mem_cons.mp hr' with rfl | hr''
        · rw [hro] at ho''
          cases ho''
          exact Or.inl rfl
        · exact Or.inr ⟨r', hr'', ho''⟩

theorem filter_key_eq (o : String) :
    ∀ l : List String, l.Nodup → o ∈ l → l.filter (fun x => x == o) = [o]
  | [], _, h => absurd h (List.not_mem_nil o)
  | a :: t, hnd, hm => by
    rw [List.nodup_cons] at hnd
    obtain ⟨ha, ht⟩ := hnd
    rcases List.mem_cons.mp hm with hoa | hm'
    · rw [List.filter_cons, if_pos (by simp [hoa])]
      have hnil : t.filter (fun x => x == o) = [] := by
        rw [List.filter_eq_nil_iff]
        intro x hx hbeq
        rw [eq_of_beq hbeq, hoa] at hx
        exact ha hx
      rw [hnil, hoa]
    · have hao : ¬ (a == o) = true := by
        intro hb
        rw [← eq_of_beq hb] at hm'
        exact ha hm'
      rw [List.filter_cons, if_neg hao]
      exact filter_key_eq o t ht hm'

/-- Python `next((val for val in x if pd.notna(val)), x.iloc[-1])` equals the head
of the non-null entries (when all entries are null, the last entry is null
too). -/
theorem firstValid_eq : ∀ l : List (Option String),
    firstValidInvoice l = (l.filterMap id).head?
  | [] => rfl
  | a :: t => by
    cases a with
    | some x => simp [firstValidInvoice, List.find?_cons, List.filterMap_cons]
    | none =>
      have ih := firstValid_eq t
      unfold firstValidInvoice at ih ⊢
      rw [List.find?_cons]
      rw [List.filterMap_cons]
      show (match t.find? (·.isSome) with
        | some v => v
        | none => (Option.none :: t).getLast?.getD none) = (t.filterMap id).head?
      cases hf : t.find? (·.isSome) with
      | some v =>
        rw [hf] at ih
        exact ih
      | none =>
        rw [hf] at ih
        cases t with
        | nil => rfl
        | cons b t' =>
          rw [List.getLast?_cons_cons]
          exact ih

/-- For an order number occurring in the rows, the aggregated ledger holds
exactly one record for it, carrying the gross sum and the invoice pick of
the group. -/
theorem filter_map_key (l : List String) (f : String → GoldRecord) (o : String)
    (hf : ∀ k, (f k).order = k) :
    (l.map f).filter (fun g => g.order == o) = (l.filter (fun k => k == o)).map f := by
  rw [List.filter_map]
  congr 1
  apply List.filter_congr
  intro k _
  show ((f k).order == o) = (k == o)
  rw [hf k]

theorem preprocess_filter_eq (rows : List GoldRow) (o : String)
    (ho : ∃ r ∈ rows, r.order = some o) :
    (preprocess_gold_data rows).filter (fun g => g.order == o) =
      [{ order := o
         brutto := ((rows.filter fun r => r.order == some o).filterMap (·.brutto)).foldl
           (· + ·) 0
         invoice := firstValidInvoice ((rows.filter fun r => r.order == some o).map
           fun r => replEmptyInvoice r.invoice) }] := by
  unfold preprocess_gold_data
  rw [filter_map_key (groupKeys rows) _ o (fun k => rfl)]
  rw [filter_key_eq o (groupKeys rows)
    (nodup_of_pairwise_lt _ (groupKeys_pairwise rows)) ((mem_groupKeys o rows).mpr ho)]
  rfl

/-- C4: aggregation yields exactly one record per distinct order
number, with the gross sum over the group and the first non-null invoice
number (null when every entry of the group is null, i.e. the value of the
last row); the documented two-row example aggregates to
`{O1, 150.50, "F/99"}`. -/
theorem C4_gold_aggregation :
    (∀ (rows : List GoldRow) (o : String),
      (∃ r ∈ rows, r.order = some o) →
      (∀ r ∈ rows, r.invoice ≠ some "") →
      (preprocess_gold_data rows).filter (fun g => g.order == o) =
        [{ order := o
           brutto := ((rows.filter fun r => r.order == some o).filterMap (·.brutto)).foldl
             (· + ·) 0
           invoice := (((rows.filter fun r => r.order == some o).map
             (·.invoice)).filterMap id).head? }]) ∧
    preprocess_gold_data
      [⟨some "O1", none, some 10000⟩, ⟨some "O1", some "F/99", some 5050⟩] =
      [⟨"O1", 15050, some "F/99"⟩] := by
  refine ⟨?_, by decide⟩
  intro rows o ho hclean
  rw [preprocess_filter_eq rows o ho]
  have hmap : ((rows.filter fun r => r.order == some o).map
      fun r => replEmptyInvoice r.invoice) =
      (rows.filter fun r => r.order == some o).map (·.invoice) := by
    apply List.map_congr_left
    intro r hr
    unfold replEmptyInvoice
    rw [if_neg (hclean r (List.mem_of_mem_filter hr))]
  rw [hmap, firstValid_eq]

/-- C4 witness: the documented example, accessed through the general
clause. -/
theorem C4_witness :
    (preprocess_gold_data
      [⟨some "O1", none, some 10000⟩, ⟨some "O1", some "F/99", some 5050⟩]).filter
        (fun g => g.order == "O1") =
      [{ order := "O1"
         brutto := ((([⟨some "O1", none, some 10000⟩,
             ⟨some "O1", some "F/99", some 5050⟩] : List GoldRow).filter
           fun r => r.order == some "O1").filterMap (·.brutto)).foldl (· + ·) 0
         invoice := (((([⟨some "O1", none, some 10000⟩,
             ⟨some "O1", some "F/99", some 5050⟩] : List GoldRow).filter
           fun r => r.order == some "O1").map (·.invoice)).filterMap id).head? }] :=
  C4_gold_aggregation.1
    [⟨some "O1", none, some 10000⟩, ⟨some "O1", some "F/99", some 5050⟩] "O1"
    (by decide) (by decide)

theorem compare_fold_out (gold : List GoldRecord) :
    ∀ (invoices : List Nat) (heap : Heap) (a : Nat), a ∉ invoices →
      (invoices.foldl
        (fun h b => fun x => if x = b then enrichInvoice gold (h b) else h x) heap) a =
      heap a
  | [], _, _, _ => rfl
  | b :: t, heap, a, ha => by
    have hab : a ≠ b := fun he => ha (he ▸ List.mem_cons_self b t)
    have hat : a ∉ t := fun hm => ha (List.mem_cons_of_mem b hm)
    rw [List.foldl_cons]
    rw [compare_fold_out gold t _ a hat]
    exact if_neg hab

theorem compare_fold_mem (gold : List GoldRecord) :
    ∀ (invoices : List Nat) (heap : Heap) (a : Nat), invoices.Nodup → a ∈ invoices →
      (invoices.foldl
        (fun h b => fun x => if x = b then enrichInvoice gold (h b) else h x) heap) a =
      enrichInvoice gold (heap a)
  | [], _, a, _, hm => absurd hm (List.not_mem_nil a)
  | b :: t, heap, a, hnd, hm => by
    rw [List.nodup_cons] at hnd
    obtain ⟨hbt, ht⟩ := hnd
    rw [List.foldl_cons]
    rcases List.mem_cons.mp hm with hab | hat
    · have hat : a ∉ t := fun h => hbt (hab ▸ h)
      rw [compare_fold_out gold t _ a hat, hab, if_pos rfl]
    · have hab : a ≠ b := fun he => hbt (he ▸ hat)
      rw [compare_fold_mem gold t _ a ht hat, if_neg hab]

/-- C8 (amended): `compare_with_gold` returns its argument list itself
(one output per input, same order, the very same records), enriching each
record in place: after the call the record at each input address is its
old contents plus the three comparison keys, and no other address is
touched.  The ledger argument is only read. -/
theorem C8_inplace_update (heap : Heap) (invoices : List Nat) (gold : List GoldRecord) :
    (compare_with_gold heap invoices gold).2 = invoices ∧
    (∀ a, a ∉ invoices → (compare_with_gold heap invoices gold).1 a = heap a) ∧
    (invoices.Nodup → ∀ a ∈ invoices,
      (compare_with_gold heap invoices gold).1 a = enrichInvoice gold (heap a)) :=
  ⟨rfl, fun a ha => compare_fold_out gold invoices heap a ha,
   fun hnd a ha => compare_fold_mem gold invoices heap a hnd ha⟩

/-- C8 witness at a one-element batch. -/
theorem C8_witness :
    (compare_with_gold (fun _ => []) [0] []).2 = [0] ∧
    (compare_with_gold (fun _ => []) [0] []).1 1 = (fun _ => ([] : Dict)) 1 ∧
    (compare_with_gold (fun _ => []) [0] []).1 0 =
      enrichInvoice [] ((fun _ => ([] : Dict)) 0) :=
  ⟨(C8_inplace_update (fun _ => []) [0] []).1,
   (C8_inplace_update (fun _ => []) [0] []).2.1 1 (by decide),
   (C8_inplace_update (fun _ => []) [0] []).2.2 (by decide) 0 (by decide)⟩

/-- C8 counterexample: the record at an input address differs after the
call — `compare_with_gold` writes into its input records (and returns the
same list), so it is not mutation-free. -/
theorem C8_counterexample :
    (compare_with_gold (fun _ => [("Numer zamówienia", EVal.str "X")]) [0] []).1 0 ≠
      [("Numer zamówienia", EVal.str "X")] := by decide

/-- C2: for an input record whose (stringified, stripped) order number
is found in the ledger, the output record carries the gross amount and
invoice number of the matched record, and `Brutto zgodne?` is `TAK` exactly
when the stringified stored gross equals the stringified ledger gross;
with ledger record `{O1, 150.50, F/99}`, a stored canonical gross of
`150.50` compares `TAK` and `150.00` compares `NIE`. -/
theorem C2_reconciliation :
    (∀ (heap : Heap) (invoices : List Nat) (gold : List GoldRecord) (a : Nat)
      (rec : GoldRecord),
      invoices.Nodup → a ∈ invoices →
      (gold.find? fun r => r.order == String.mk (pyStrip
        (invoiceGetStr (heap a) "Numer zamówienia").data)) = some rec →
      dictGet? ((compare_with_gold heap invoices gold).1 a) "Brutto GOLD" =
        some (EVal.num rec.brutto) ∧
      dictGet? ((compare_with_gold heap invoices gold).1 a) "Nr faktury GOLD" =
        some (goldInvoiceEVal rec.invoice) ∧
      (dictGet? ((compare_with_gold heap invoices gold).1 a) "Brutto zgodne?" =
          some (EVal.str "TAK") ↔
        invoiceGetStr (heap a) "Brutto" = reprCents rec.brutto)) ∧
    dictGet? ((compare_with_gold
        (fun _ => [("Numer zamówienia", EVal.str "O1"), ("Brutto", EVal.num 15050)])
        [0] [⟨"O1", 15050, some "F/99"⟩]).1 0) "Brutto zgodne?" =
      some (EVal.str "TAK") ∧
    dictGet? ((compare_with_gold
        (fun _ => [("Numer zamówienia", EVal.str "O1"), ("Brutto", EVal.num 15000)])
        [0] [⟨"O1", 15050, some "F/99"⟩]).1 0) "Brutto zgodne?" =
      some (EVal.str "NIE") ∧
    centsQ 15050 = 150.50 ∧ centsQ 15000 = 150.00 := by
  refine ⟨?_, by decide, by decide, by norm_num [centsQ], by norm_num [centsQ]⟩
  intro heap invoices gold a rec hnd ha hfind
  have hout : (compare_with_gold heap invoices gold).1 a = enrichInvoice gold (heap a) :=
    compare_fold_mem gold invoices heap a hnd ha
  rw [hout]
  unfold enrichInvoice
  rw [hfind]
  refine ⟨?_, ?_, ?_⟩
  · rw [dictGet?_dictSet_ne _ _ _ _ (by decide), dictGet?_dictSet_ne _ _ _ _ (by decide),
      dictGet?_dictSet_self]
  · rw [dictGet?_dictSet_ne _ _ _ _ (by decide), dictGet?_dictSet_self]
  · rw [dictGet?_dictSet_self]
    by_cases hcmp : invoiceGetStr (heap a) "Brutto" = reprCents rec.brutto
    · rw [if_pos hcmp]
      simp [hcmp]
    · rw [if_neg hcmp]
      simp [hcmp]

/-- C2 witness: the `TAK` example reached through the general clause. -/
theorem C2_witness :
    dictGet? ((compare_with_gold
        (fun _ => [("Numer zamówienia", EVal.str "O1"), ("Brutto", EVal.num 15050)])
        [0] [⟨"O1", 15050, some "F/99"⟩]).1 0) "Brutto GOLD" = some (EVal.num 15050) ∧
    dictGet? ((compare_with_gold
        (fun _ => [("Numer zamówienia", EVal.str "O1"), ("Brutto", EVal.num 15050)])
        [0] [⟨"O1", 15050, some "F/99"⟩]).1 0) "Nr faktury GOLD" =
      some (goldInvoiceEVal (some "F/99")) ∧
    (dictGet? ((compare_with_gold
        (fun _ => [("Numer zamówienia", EVal.str "O1"), ("Brutto", EVal.num 15050)])
        [0] [⟨"O1", 15050, some "F/99"⟩]).1 0) "Brutto zgodne?" =
        some (EVal.str "TAK") ↔
      invoiceGetStr ((fun _ => [("Numer zamówienia", EVal.str "O1"),
        ("Brutto", EVal.num 15050)] : Heap) 0) "Brutto" = reprCents 15050) :=
  C2_reconciliation.1
    (fun _ => [("Numer zamówienia", EVal.str "O1"), ("Brutto", EVal.num 15050)])
    [0] [⟨"O1", 15050, some "F/99"⟩] 0 ⟨"O1", 15050, some "F/99"⟩
    (by decide) (by decide) (by decide)

theorem headFilterMap {α β : Type} (f : α → Option β) (a : α) (l : List α) :
    (List.filterMap f (a :: l)).head? = (f a).or (List.filterMap f l).head? := by
  cases h : f a <;> simp [List.filterMap_cons, h]

theorem docFirstMatch_nil (r : Regex) : docFirstMatch r [] = (matchList r [] 1).head? := by
  unfold docFirstMatch
  rw [List.range_succ_eq_map, List.length_nil, List.range_zero, List.map_nil, headFilterMap,
    List.filterMap_nil]
  exact Option.or_none

/-- The document-order scan looks at the current position first and then
scans the tail. -/
theorem docFirstMatch_cons (r : Regex) (c : Char) (t : List Char) :
    docFirstMatch r (c :: t) =
      ((matchList r (c :: t) ((c :: t).length + 1)).head?).or (docFirstMatch r t) := by
  unfold docFirstMatch
  rw [List.range_succ_eq_map, headFilterMap, List.filterMap_map]
  rfl

/-- Python `re.search` scans for the first match in document order: `searchList`
equals the specification-side position scan. -/
theorem searchList_eq_docFirst (r : Regex) :
    ∀ l : List Char, searchList r l = (docFirstMatch r l).map fun m => (m.1, m.2.2)
  | [] => by
    rw [docFirstMatch_nil]
    rfl
  | c :: t => by
    rw [docFirstMatch_cons]
    cases h0 : (matchList r (c :: t) ((c :: t).length + 1)).head? with
    | some m =>
      have hh : headMatch r (c :: t) = some (m.1, m.2.2) := by
        unfold headMatch
        rw [h0]
        rfl
      rw [searchList, hh]
      rfl
    | none =>
      have hh : headMatch r (c :: t) = none := by
        unfold headMatch
        rw [h0]
        rfl
      rw [searchList, hh, Option.none_or]
      exact searchList_eq_docFirst r t

/-- One loop iteration of `_search_patterns`, characterised through the
document-order search. -/
theorem tryPattern_eq (text : String) (r : Regex) :
    tryPattern text (some r) = (docFirstMatch r text.data).map
      fun m => String.mk (pyStrip (m.2.2.head?.getD [])) := by
  show (searchList r text.data).map (fun m => String.mk (pyStrip (group1 m))) = _
  rw [searchList_eq_docFirst]
  cases docFirstMatch r text.data <;> rfl

/-- C3: the primary pattern is attempted before the alternative and
only the first match of each — first in document order, not longest, not
last (`docFirstMatch`) — is used; a primary match yields its first group
stripped of whitespace; with no primary match the first match of the
alternative (first group, stripped) is used; with neither, the result is null. -/
theorem C3_pattern_precedence (text : String) (p a : Option Regex) :
    (∀ rp m, p = some rp → docFirstMatch rp text.data = some m →
      _search_patterns text p a = some (String.mk (pyStrip (m.2.2.head?.getD [])))) ∧
    ((p = none ∨ ∃ rp, p = some rp ∧ docFirstMatch rp text.data = none) →
      ∀ ra m, a = some ra → docFirstMatch ra text.data = some m →
        _search_patterns text p a = some (String.mk (pyStrip (m.2.2.head?.getD [])))) ∧
    ((p = none ∨ ∃ rp, p = some rp ∧ docFirstMatch rp text.data = none) →
      (a = none ∨ ∃ ra, a = some ra ∧ docFirstMatch ra text.data = none) →
      _search_patterns text p a = none) := by
  have hnone : ∀ q : Option Regex,
      (q = none ∨ ∃ rq, q = some rq ∧ docFirstMatch rq text.data = none) →
      tryPattern text q = none := by
    rintro q (rfl | ⟨rq, rfl, hq⟩)
    · rfl
    · rw [tryPattern_eq, hq]
      rfl
  refine ⟨?_, ?_, ?_⟩
  · rintro rp m rfl hm
    unfold _search_patterns
    rw [tryPattern_eq, hm]
    rfl
  · rintro hp ra m rfl hm
    unfold _search_patterns
    rw [hnone _ hp, tryPattern_eq, hm]
    rfl
  · intro hp ha
    unfold _search_patterns
    rw [hnone _ hp, hnone _ ha]

/-- C3 witness: the MAG `VAT 23%` pattern on `"23% 5"` — the first
document-order match captures `"5"`, which `_search_patterns` returns. -/
theorem C3_witness :
    docFirstMatch magVat23Re (String.data "23% 5") =
      some ((String.data "23% 5"), [], [['5']]) ∧
    _search_patterns "23% 5" (some magVat23Re) none = some "5" :=
  ⟨by decide,
   (C3_pattern_precedence "23% 5" (some magVat23Re) none).1 magVat23Re
     ((String.data "23% 5"), [], [['5']]) rfl (by decide)⟩

/-- C5 (amended): loading raises exactly when a required column is
missing from the (post-skip) header, and the raised message interpolates
the full required-column list and the columns actually found — not the
missing columns themselves.  All other core operations of the model are
total functions and cannot raise. -/
theorem C5_schema_error (file : List (List Cell)) :
    (missing_columns (((file.drop 1).head?.getD []).map cellHeaderName) = [] →
      ∃ recs, load_gold_data file = Except.ok recs) ∧
    (missing_columns (((file.drop 1).head?.getD []).map cellHeaderName) ≠ [] →
      load_gold_data file =
        Except.error (goldSchemaError (((file.drop 1).head?.getD []).map
          cellHeaderName))) := by
  constructor
  · intro h
    refine ⟨preprocess_gold_data (((file.drop 1).drop 1).map
      (rowToGold (((file.drop 1).head?.getD []).map cellHeaderName))), ?_⟩
    unfold load_gold_data
    rw [if_pos h]
  · intro h
    unfold load_gold_data
    rw [if_neg h]

/-- C5 witness: a complete header loads; a header missing two columns
raises with the interpolated message. -/
theorem C5_witness :
    (∃ recs, load_gold_data [[Cell.str "meta"],
      [Cell.str "Nr Zamówienia", Cell.str "Nr faktury", Cell.str "Brutto"]] =
        Except.ok recs) ∧
    load_gold_data [[Cell.str "meta"], [Cell.str "Nr Zamówienia"]] =
      Except.error (goldSchemaError ["Nr Zamówienia"]) :=
  ⟨(C5_schema_error [[Cell.str "meta"],
      [Cell.str "Nr Zamówienia", Cell.str "Nr faktury", Cell.str "Brutto"]]).1 (by decide),
   (C5_schema_error [[Cell.str "meta"], [Cell.str "Nr Zamówienia"]]).2 (by decide)⟩

/-- C5 counterexample: with only `Brutto` missing, the raised message
still names the non-missing column `Nr faktury` (it interpolates the full
expected list and the found columns), so it does not name exactly the
missing column names. -/
theorem C5_counterexample :
    missing_columns ["Nr Zamówienia", "Nr faktury"] = ["Brutto"] ∧
    load_gold_data [[Cell.str "meta"], [Cell.str "Nr Zamówienia", Cell.str "Nr faktury"]] =
      Except.error (goldSchemaError ["Nr Zamówienia", "Nr faktury"]) ∧
    isSubstr (String.data "Nr faktury")
      (String.data (goldSchemaError ["Nr Zamówienia", "Nr faktury"])) = true ∧
    "Nr faktury" ∉ missing_columns ["Nr Zamówienia", "Nr faktury"] :=
  ⟨by decide, rfl, by decide, by decide⟩

/-- C9 (amended): loading always skips exactly one leading row — the
first row never influences the result and the second row is always read as
the header — and the count is fixed: the only input of `load_gold_data` is
the sheet, so no configuration can skip any other number of rows. -/
theorem C9_skiprows :
    (∀ (r r' : List Cell) (rest : List (List Cell)),
      load_gold_data (r :: rest) = load_gold_data (r' :: rest)) ∧
    (∀ (r hdr : List Cell) (data : List (List Cell)),
      missing_columns (hdr.map cellHeaderName) = [] →
      load_gold_data (r :: hdr :: data) =
        Except.ok (preprocess_gold_data
          (data.map (rowToGold (hdr.map cellHeaderName))))) := by
  constructor
  · intro r r' rest
    rfl
  · intro r hdr data h
    show (if missing_columns (hdr.map cellHeaderName) = [] then
        Except.ok (preprocess_gold_data (data.map (rowToGold (hdr.map cellHeaderName))))
      else Except.error (goldSchemaError (hdr.map cellHeaderName))) =
      Except.ok (preprocess_gold_data (data.map (rowToGold (hdr.map cellHeaderName))))
    rw [if_pos h]

/-- C9 witness: one metadata row followed by a valid header loads the
data rows. -/
theorem C9_witness :
    load_gold_data [[Cell.str "meta1"], [Cell.str "meta2"],
        [Cell.str "Nr Zamówienia", Cell.str "Nr faktury", Cell.str "Brutto"]] =
      load_gold_data [[], [Cell.str "meta2"],
        [Cell.str "Nr Zamówienia", Cell.str "Nr faktury", Cell.str "Brutto"]] ∧
    load_gold_data [[Cell.str "meta"],
        [Cell.str "Nr Zamówienia", Cell.str "Nr faktury", Cell.str "Brutto"],
        [Cell.str "O1", Cell.blank, Cell.num 10000]] =
      Except.ok (preprocess_gold_data
        ([[Cell.str "O1", Cell.blank, Cell.num 10000]].map
          (rowToGold (["Nr Zamówienia", "Nr faktury", "Brutto"])))) :=
  ⟨(C9_skiprows).1 [Cell.str "meta1"] [] _,
   (C9_skiprows).2 [Cell.str "meta"]
     [Cell.str "Nr Zamówienia", Cell.str "Nr faktury", Cell.str "Brutto"]
     [[Cell.str "O1", Cell.blank, Cell.num 10000]] (by decide)⟩

/-- C9 counterexample: a sheet whose header is preceded by two
metadata rows cannot be loaded — the fixed skip of one row reads the
second metadata row as the header and raises, and `load_gold_data` takes
no skip-count argument that could change this. -/
theorem C9_counterexample :
    load_gold_data [[Cell.str "meta1"], [Cell.str "meta2"],
        [Cell.str "Nr Zamówienia", Cell.str "Nr faktury", Cell.str "Brutto"]] =
      Except.error (goldSchemaError ["meta2"]) := rfl
